import Mathlib

/-!
Shallow embedding of src/tracking/tracking.py (classes TrackedObject and
Tracker). Python floats are modelled as rationals, CPython int() as
truncation toward zero, datetime timestamps as naturals, the per-identity
defaultdict store as an association list, and the one frame loop body of
Tracker.track_next_frame as processEvent. Fallible operations return
Option, where none models a raised Python exception.
-/

namespace Tracking

/-- Truncation toward zero of a rational number, the behaviour of CPython
int() applied to a float value. -/
def pytrunc (q : ℚ) : ℤ := q.num / (q.den : ℤ)

/-- Normalized bounding box (center x, center y, width, height), the value
box.xywhn passed to Tracker.crop_image_with_bbox. -/
structure BBox where
  cx : ℚ
  cy : ℚ
  w : ℚ
  h : ℚ
deriving DecidableEq

/-- Crop rectangle in absolute pixel coordinates. The numpy expression
image[y:y + h, x:x + w] is determined by this rectangle, so the cropped
image is modelled by the rectangle itself. -/
structure Rect where
  x : ℤ
  y : ℤ
  w : ℤ
  h : ℤ
deriving DecidableEq

/-- Embeds the static method Tracker.crop_image_with_bbox (lines 139 to 155 of
src/tracking/tracking.py): scale the normalized box by the frame dimensions,
truncate with int(), and compute the top left corner. No clamping occurs. -/
def crop_image_with_bbox (original_width original_height : ℕ) (bbox : BBox) : Rect :=
  let x_center : ℤ := pytrunc (bbox.cx * (original_width : ℚ))
  let y_center : ℤ := pytrunc (bbox.cy * (original_height : ℚ))
  let w : ℤ := pytrunc (bbox.w * (original_width : ℚ))
  let h : ℤ := pytrunc (bbox.h * (original_height : ℚ))
  let x : ℤ := pytrunc ((x_center : ℚ) - (w : ℚ) / 2)
  let y : ℤ := pytrunc ((y_center : ℚ) - (h : ℚ) / 2)
  ⟨x, y, w, h⟩

/-- TrackedObject.MAX_POINTS, the trajectory capacity constant. -/
def MAX_POINTS : ℕ := 90

/-- Tracker.FRAMES_COUNT, the confirmation threshold constant. -/
def FRAMES_COUNT : ℕ := 10

/-- State of one TrackedObject instance. The vote ledger predicted_types is a
Python dict from label to count, kept here as an association list in key
insertion order, which is exactly the iteration order of a Python dict. -/
structure TrackedObject where
  tracked_points : List (ℚ × ℚ)
  predicted_types : List (String × ℕ)
  first_detection : Option ℕ
  last_detection : Option ℕ
  cropped_frame : Option Rect
deriving DecidableEq

/-- TrackedObject.__init__: empty trajectory, empty ledger, no timestamps,
no snapshot. -/
def initTracked : TrackedObject := ⟨[], [], none, none, none⟩

/-- TrackedObject.detect: set first_detection only when it is still unset,
always set last_detection. The two datetime.now() calls are modelled by one
timestamp per event. -/
def TrackedObject.detect (r : TrackedObject) (t : ℕ) : TrackedObject :=
  { r with
    first_detection :=
      match r.first_detection with
      | none => some t
      | some f => some f
    last_detection := some t }

/-- sum(self.predicted_types.values()) -/
def votesSum : List (String × ℕ) → ℕ
  | [] => 0
  | (_, v) :: rest => v + votesSum rest

/-- TrackedObject.__len__: 0 when the trajectory is empty, otherwise the sum
of all vote counts. -/
def TrackedObject.len (r : TrackedObject) : ℕ :=
  match r.tracked_points with
  | [] => 0
  | _ :: _ => votesSum r.predicted_types

/-- self.predicted_types[label] += 1 on a defaultdict(int): increment an
existing key in place, or append a new key with count 1 at the end of the
insertion order. -/
def addVote (label : String) : List (String × ℕ) → List (String × ℕ)
  | [] => [(label, 1)]
  | (k, v) :: rest => if k = label then (k, v + 1) :: rest else (k, v) :: addVote label rest

/-- The points setter of TrackedObject (lines 33 to 37): pop the oldest point
when the current length exceeds MAX_POINTS, then append. -/
def pointsAppend (pts : List (ℚ × ℚ)) (p : ℚ × ℚ) : List (ℚ × ℚ) :=
  (if MAX_POINTS < pts.length then pts.tail else pts) ++ [p]

/-- The loop of CPython max(keys, key=...): keep the current best and replace
it only on a strictly larger key value, so the earliest maximal element
wins. -/
def typeLoop (best : String) (bestCount : ℕ) : List (String × ℕ) → String
  | [] => best
  | (k, v) :: rest => if bestCount < v then typeLoop k v rest else typeLoop best bestCount rest

/-- The property TrackedObject.type: max over the dict keys by vote count.
none models the ValueError raised by max() on an empty sequence. -/
def pytype : List (String × ℕ) → Option String
  | [] => none
  | (k, v) :: rest => some (typeLoop k v rest)

/-- One detection handed to the loop body of Tracker.track_next_frame:
identity, absolute center from box.xywh, normalized box from box.xywhn,
class name, processing timestamp, and the frame dimensions. -/
structure DetectionEvent where
  track_id : ℕ
  center : ℚ × ℚ
  bbox : BBox
  label : String
  time : ℕ
  frameW : ℕ
  frameH : ℕ
deriving DecidableEq

/-- Lines 100 to 101: capture the snapshot when none is stored yet and the
current observation count strictly exceeds FRAMES_COUNT. -/
def snapStep (e : DetectionEvent) (r : TrackedObject) : TrackedObject :=
  match r.cropped_frame with
  | some _ => r
  | none =>
      if FRAMES_COUNT < r.len then
        { r with cropped_frame := some (crop_image_with_bbox e.frameW e.frameH e.bbox) }
      else r

/-- Line 102: record one vote for the class name of the event. -/
def voteStep (e : DetectionEvent) (r : TrackedObject) : TrackedObject :=
  { r with predicted_types := addVote e.label r.predicted_types }

/-- Line 103: append the absolute center through the points setter. -/
def pointStep (e : DetectionEvent) (r : TrackedObject) : TrackedObject :=
  { r with tracked_points := pointsAppend r.tracked_points e.center }

/-- The loop body of Tracker.track_next_frame (lines 99 to 103) applied to
one TrackedObject, in source order: detect, snapshot gate, vote, point. -/
def processEvent (e : DetectionEvent) (r : TrackedObject) : TrackedObject :=
  pointStep e (voteStep e (snapStep e (TrackedObject.detect r e.time)))

/-- The store self.tracked_objects, a dict from track id to record, kept as
an association list in insertion order. -/
abbrev Store := List (ℕ × TrackedObject)

/-- Python dict lookup: the key occurs at most once, the first match wins. -/
def lookupStore : Store → ℕ → Option TrackedObject
  | [], _ => none
  | (k, v) :: rest, i => if k = i then some v else lookupStore rest i

/-- Replace the value stored under a key. -/
def setStore : Store → ℕ → TrackedObject → Store
  | [], _, _ => []
  | (k, w) :: rest, i, v =>
      if k = i then (i, v) :: setStore rest i v else (k, w) :: setStore rest i v

/-- self.tracked_objects[track_id] on defaultdict(lambda: TrackedObject()):
return the present record unchanged, or insert and return a fresh record. -/
def getOrCreate (s : Store) (i : ℕ) : TrackedObject × Store :=
  match lookupStore s i with
  | some r => (r, s)
  | none => (initTracked, s ++ [(i, initTracked)])

/-- Process one detection event against the store: fetch or create the
record for the identity, then mutate it with the loop body. -/
def ingestEvent (s : Store) (e : DetectionEvent) : Store :=
  let rs := getOrCreate s e.track_id
  setStore rs.2 e.track_id (processEvent e rs.1)

/-- Process a whole event sequence starting from the empty store. -/
def ingestAll (es : List DetectionEvent) : Store := es.foldl ingestEvent []

/-- The observation history of a single identity: fold the loop body over a
fresh record. -/
def runObs (es : List DetectionEvent) : TrackedObject :=
  es.foldl (fun r e => processEvent e r) initTracked

/-- Tracker.get_objects (lines 133 to 137): the subset of records whose
__len__ strictly exceeds FRAMES_COUNT, as a pure read of the store. -/
def get_objects (s : Store) : Store :=
  s.filter fun kv => decide (FRAMES_COUNT < kv.2.len)

/-- Vote ledger obtained from a sequence of observed class labels. -/
def buildLedger (labels : List String) : List (String × ℕ) :=
  labels.foldl (fun acc lab => addVote lab acc) []

/-- A well formed valid detection event used as concrete test input. -/
def mkEv : DetectionEvent :=
  ⟨0, (1 / 2, 1 / 2), ⟨1 / 2, 1 / 2, 1, 1⟩, "car", 0, 100, 100⟩

/-- A malformed detection event: class label empty and normalized box
coordinates outside the unit interval. -/
def badEv : DetectionEvent :=
  ⟨0, (1 / 2, 1 / 2), ⟨2, 2, 3, 3⟩, "", 1, 100, 100⟩

/-! ### Projection lemmas for one processed event -/

theorem votesSum_addVote (label : String) (l : List (String × ℕ)) :
    votesSum (addVote label l) = votesSum l + 1 := by
  induction l with
  | nil => rfl
  | cons kv rest ih =>
      obtain ⟨k, v⟩ := kv
      by_cases h : k = label
      · simp [addVote, h, votesSum]
        omega
      · simp [addVote, h, votesSum, ih]
        omega

theorem snapStep_tracked_points (e : DetectionEvent) (r : TrackedObject) :
    (snapStep e r).tracked_points = r.tracked_points := by
  unfold snapStep
  cases r.cropped_frame with
  | none => by_cases h : FRAMES_COUNT < r.len <;> simp [h]
  | some img => rfl

theorem snapStep_predicted_types (e : DetectionEvent) (r : TrackedObject) :
    (snapStep e r).predicted_types = r.predicted_types := by
  unfold snapStep
  cases r.cropped_frame with
  | none => by_cases h : FRAMES_COUNT < r.len <;> simp [h]
  | some img => rfl

theorem snapStep_first_detection (e : DetectionEvent) (r : TrackedObject) :
    (snapStep e r).first_detection = r.first_detection := by
  unfold snapStep
  cases r.cropped_frame with
  | none => by_cases h : FRAMES_COUNT < r.len <;> simp [h]
  | some img => rfl

theorem snapStep_last_detection (e : DetectionEvent) (r : TrackedObject) :
    (snapStep e r).last_detection = r.last_detection := by
  unfold snapStep
  cases r.cropped_frame with
  | none => by_cases h : FRAMES_COUNT < r.len <;> simp [h]
  | some img => rfl

theorem detect_len (r : TrackedObject) (t : ℕ) :
    (r.detect t).len = r.len := rfl

theorem snapStep_cropped_of_some (e : DetectionEvent) (r : TrackedObject) (img : Rect)
    (h : r.cropped_frame = some img) : (snapStep e r).cropped_frame = some img := by
  unfold snapStep
  rw [h]
  exact h

theorem snapStep_cropped_of_low (e : DetectionEvent) (r : TrackedObject)
    (h : r.cropped_frame = none) (hlen : r.len ≤ FRAMES_COUNT) :
    (snapStep e r).cropped_frame = none := by
  unfold snapStep
  rw [h]
  simp [Nat.not_lt.mpr hlen, h]

theorem snapStep_cropped_of_high (e : DetectionEvent) (r : TrackedObject)
    (h : r.cropped_frame = none) (hlen : FRAMES_COUNT < r.len) :
    (snapStep e r).cropped_frame =
      some (crop_image_with_bbox e.frameW e.frameH e.bbox) := by
  unfold snapStep
  rw [h]
  simp [hlen]

theorem processEvent_tracked_points (e : DetectionEvent) (r : TrackedObject) :
    (processEvent e r).tracked_points = pointsAppend r.tracked_points e.center := by
  show pointsAppend (snapStep e (r.detect e.time)).tracked_points e.center = _
  rw [snapStep_tracked_points]
  rfl

theorem processEvent_predicted_types (e : DetectionEvent) (r : TrackedObject) :
    (processEvent e r).predicted_types = addVote e.label r.predicted_types := by
  show addVote e.label (snapStep e (r.detect e.time)).predicted_types = _
  rw [snapStep_predicted_types]
  rfl

theorem processEvent_last_detection (e : DetectionEvent) (r : TrackedObject) :
    (processEvent e r).last_detection = some e.time := by
  show (snapStep e (r.detect e.time)).last_detection = some e.time
  rw [snapStep_last_detection]
  rfl

theorem processEvent_first_of_some (e : DetectionEvent) (r : TrackedObject) (f : ℕ)
    (h : r.first_detection = some f) :
    (processEvent e r).first_detection = some f := by
  show (snapStep e (r.detect e.time)).first_detection = some f
  rw [snapStep_first_detection]
  show (match r.first_detection with
        | none => some e.time
        | some f => some f) = some f
  rw [h]

theorem processEvent_first_of_none (e : DetectionEvent) (r : TrackedObject)
    (h : r.first_detection = none) :
    (processEvent e r).first_detection = some e.time := by
  show (snapStep e (r.detect e.time)).first_detection = some e.time
  rw [snapStep_first_detection]
  show (match r.first_detection with
        | none => some e.time
        | some f => some f) = some e.time
  rw [h]

theorem processEvent_cropped_of_some (e : DetectionEvent) (r : TrackedObject) (img : Rect)
    (h : r.cropped_frame = some img) :
    (processEvent e r).cropped_frame = some img := by
  show (snapStep e (r.detect e.time)).cropped_frame = some img
  exact snapStep_cropped_of_some e _ img h

theorem processEvent_cropped_of_low (e : DetectionEvent) (r : TrackedObject)
    (h : r.cropped_frame = none) (hlen : r.len ≤ FRAMES_COUNT) :
    (processEvent e r).cropped_frame = none := by
  show (snapStep e (r.detect e.time)).cropped_frame = none
  exact snapStep_cropped_of_low e _ h (by rw [detect_len]; exact hlen)

theorem processEvent_cropped_of_high (e : DetectionEvent) (r : TrackedObject)
    (h : r.cropped_frame = none) (hlen : FRAMES_COUNT < r.len) :
    (processEvent e r).cropped_frame =
      some (crop_image_with_bbox e.frameW e.frameH e.bbox) := by
  show (snapStep e (r.detect e.time)).cropped_frame = _
  exact snapStep_cropped_of_high e _ h (by rw [detect_len]; exact hlen)

/-! ### Reachable record states: the observation count invariant -/

/-- Well formed record state after n processed observations: the vote counts
sum to n and the trajectory is empty exactly for n = 0. Every state reachable
from initTracked through processEvent satisfies this. -/
def Wf (r : TrackedObject) (n : ℕ) : Prop :=
  votesSum r.predicted_types = n ∧ (r.tracked_points = [] ↔ n = 0)

theorem wf_init : Wf initTracked 0 := by
  constructor
  · rfl
  · simp [initTracked]

theorem len_of_wf (r : TrackedObject) (n : ℕ) (h : Wf r n) : r.len = n := by
  obtain ⟨hs, he⟩ := h
  unfold TrackedObject.len
  cases hp : r.tracked_points with
  | nil => exact ((he.mp hp)).symm
  | cons a l => rw [hs]

theorem wf_processEvent (e : DetectionEvent) (r : TrackedObject) (n : ℕ)
    (h : Wf r n) : Wf (processEvent e r) (n + 1) := by
  obtain ⟨hs, he⟩ := h
  constructor
  · rw [processEvent_predicted_types, votesSum_addVote, hs]
  · rw [processEvent_tracked_points]
    unfold pointsAppend
    constructor
    · intro hnil
      exact absurd hnil (by simp)
    · omega

theorem wf_foldl (es : List DetectionEvent) :
    ∀ (r : TrackedObject) (n : ℕ), Wf r n →
      Wf (es.foldl (fun a e => processEvent e a) r) (n + es.length) := by
  induction es with
  | nil => intro r n h; simpa using h
  | cons e es ih =>
      intro r n h
      have := ih (processEvent e r) (n + 1) (wf_processEvent e r n h)
      simpa [List.foldl_cons, Nat.add_comm, Nat.add_assoc, Nat.add_left_comm] using this

theorem wf_runObs (es : List DetectionEvent) : Wf (runObs es) es.length := by
  have := wf_foldl es initTracked 0 wf_init
  simpa [runObs] using this

theorem len_runObs (es : List DetectionEvent) : (runObs es).len = es.length :=
  len_of_wf _ _ (wf_runObs es)

/-! ### Snapshot lifecycle lemmas -/

theorem cropped_stable (es : List DetectionEvent) :
    ∀ (r : TrackedObject) (img : Rect), r.cropped_frame = some img →
      (es.foldl (fun a e => processEvent e a) r).cropped_frame = some img := by
  induction es with
  | nil => intro r img h; simpa using h
  | cons e es ih =>
      intro r img h
      exact ih (processEvent e r) img (processEvent_cropped_of_some e r img h)

theorem cropped_none_of_short (es : List DetectionEvent) :
    ∀ (r : TrackedObject) (n : ℕ), Wf r n → r.cropped_frame = none →
      n + es.length ≤ FRAMES_COUNT + 1 →
      (es.foldl (fun a e => processEvent e a) r).cropped_frame = none := by
  induction es with
  | nil => intro r n _ h _; simpa using h
  | cons e es ih =>
      intro r n hwf h hlen
      have hn : r.len ≤ FRAMES_COUNT := by
        rw [len_of_wf r n hwf]
        simp [List.length_cons] at hlen
        omega
      refine ih (processEvent e r) (n + 1) (wf_processEvent e r n hwf)
        (processEvent_cropped_of_low e r h hn) ?_
      simp [List.length_cons] at hlen
      omega

theorem runObs_cropped_none (es : List DetectionEvent)
    (h : es.length ≤ FRAMES_COUNT + 1) : (runObs es).cropped_frame = none := by
  have := cropped_none_of_short es initTracked 0 wf_init rfl (by omega)
  simpa [runObs] using this

theorem runObs_snoc (es : List DetectionEvent) (e : DetectionEvent) :
    runObs (es ++ [e]) = processEvent e (runObs es) := by
  simp [runObs, List.foldl_append]

theorem runObs_cropped_set_on_next (es : List DetectionEvent) (e : DetectionEvent)
    (h : es.length = FRAMES_COUNT + 1) :
    (runObs (es ++ [e])).cropped_frame =
      some (crop_image_with_bbox e.frameW e.frameH e.bbox) := by
  rw [runObs_snoc]
  refine processEvent_cropped_of_high e (runObs es) (runObs_cropped_none es (by omega)) ?_
  rw [len_runObs, h]
  omega

theorem runObs_cropped_some_of_long (es : List DetectionEvent)
    (h : FRAMES_COUNT + 2 ≤ es.length) :
    ∃ img, (runObs es).cropped_frame = some img := by
  have hd : es.drop (FRAMES_COUNT + 1) ≠ [] := by
    intro hnil
    have := List.drop_eq_nil_iff.mp hnil
    omega
  obtain ⟨e, rest, hdrop⟩ := List.exists_cons_of_ne_nil hd
  have hsplit : es = es.take (FRAMES_COUNT + 1) ++ (e :: rest) := by
    rw [← hdrop, List.take_append_drop]
  have htake : (es.take (FRAMES_COUNT + 1)).length = FRAMES_COUNT + 1 := by
    rw [List.length_take]
    omega
  refine ⟨crop_image_with_bbox e.frameW e.frameH e.bbox, ?_⟩
  have h1 := runObs_cropped_set_on_next (es.take (FRAMES_COUNT + 1)) e htake
  have h2 : runObs es =
      rest.foldl (fun a x => processEvent x a)
        (runObs (es.take (FRAMES_COUNT + 1) ++ [e])) := by
    conv_lhs => rw [hsplit]
    simp [runObs, List.foldl_append]
  rw [h2]
  exact cropped_stable rest _ _ h1

/-! ### Timestamp lemmas -/

theorem first_last_run (es : List DetectionEvent) :
    ∀ (r : TrackedObject) (f l : ℕ),
      r.first_detection = some f → r.last_detection = some l → f ≤ l →
      List.Sorted (· ≤ ·) (l :: es.map DetectionEvent.time) →
      ∃ l2, (es.foldl (fun a e => processEvent e a) r).first_detection = some f ∧
        (es.foldl (fun a e => processEvent e a) r).last_detection = some l2 ∧ f ≤ l2 := by
  induction es with
  | nil =>
      intro r f l h1 h2 h3 _
      exact ⟨l, by simpa using h1, by simpa using h2, h3⟩
  | cons e es ih =>
      intro r f l h1 h2 h3 hsort
      rw [List.map_cons] at hsort
      obtain ⟨hle, hsort2⟩ := List.sorted_cons.mp hsort
      have hlet : l ≤ e.time := hle e.time (by simp)
      exact ih (processEvent e r) f e.time (processEvent_first_of_some e r f h1)
        (processEvent_last_detection e r) (le_trans h3 hlet) hsort2

theorem first_stable (es : List DetectionEvent) :
    ∀ (r : TrackedObject) (f : ℕ), r.first_detection = some f →
      (es.foldl (fun a e => processEvent e a) r).first_detection = some f := by
  induction es with
  | nil => intro r f h; simpa using h
  | cons e es ih =>
      intro r f h
      exact ih (processEvent e r) f (processEvent_first_of_some e r f h)

/-! ### Store lemmas: each identity routes to its own record -/

theorem lookup_setStore_eq (s : Store) (i : ℕ) (v : TrackedObject) :
    lookupStore (setStore s i v) i = (lookupStore s i).map (fun _ => v) := by
  induction s with
  | nil => rfl
  | cons kv rest ih =>
      obtain ⟨k, w⟩ := kv
      by_cases h : k = i
      · subst h
        simp [setStore, lookupStore]
      · simp [setStore, lookupStore, h, ih]

theorem lookup_setStore_ne (s : Store) (i j : ℕ) (v : TrackedObject) (h : j ≠ i) :
    lookupStore (setStore s i v) j = lookupStore s j := by
  induction s with
  | nil => rfl
  | cons kv rest ih =>
      obtain ⟨k, w⟩ := kv
      by_cases hk : k = i
      · subst hk
        have hkj : ¬ k = j := fun hkj => h hkj.symm
        simp [setStore, lookupStore, hkj, ih]
      · by_cases hj : k = j
        · simp [setStore, lookupStore, hk, hj, h]
        · simp [setStore, lookupStore, hk, hj, ih]

theorem lookup_append_single (s : Store) (k i : ℕ) (v : TrackedObject) :
    lookupStore (s ++ [(k, v)]) i =
      match lookupStore s i with
      | some r => some r
      | none => if k = i then some v else none := by
  induction s with
  | nil => rfl
  | cons kv rest ih =>
      obtain ⟨k2, w⟩ := kv
      by_cases h : k2 = i
      · simp [lookupStore, h]
      · simpa [lookupStore, h] using ih

theorem ingestEvent_eq_some (s : Store) (e : DetectionEvent) (r : TrackedObject)
    (hl : lookupStore s e.track_id = some r) :
    ingestEvent s e = setStore s e.track_id (processEvent e r) := by
  unfold ingestEvent getOrCreate
  rw [hl]

theorem ingestEvent_eq_none (s : Store) (e : DetectionEvent)
    (hl : lookupStore s e.track_id = none) :
    ingestEvent s e =
      setStore (s ++ [(e.track_id, initTracked)]) e.track_id
        (processEvent e initTracked) := by
  unfold ingestEvent getOrCreate
  rw [hl]

theorem lookup_ingestEvent_self (s : Store) (e : DetectionEvent) :
    lookupStore (ingestEvent s e) e.track_id =
      some (processEvent e ((lookupStore s e.track_id).getD initTracked)) := by
  cases hl : lookupStore s e.track_id with
  | some r =>
      rw [ingestEvent_eq_some s e r hl, lookup_setStore_eq, hl]
      rfl
  | none =>
      rw [ingestEvent_eq_none s e hl, lookup_setStore_eq, lookup_append_single, hl]
      simp

theorem lookup_ingestEvent_other (s : Store) (e : DetectionEvent) (i : ℕ)
    (h : i ≠ e.track_id) :
    lookupStore (ingestEvent s e) i = lookupStore s i := by
  cases hl : lookupStore s e.track_id with
  | some r =>
      rw [ingestEvent_eq_some s e r hl, lookup_setStore_ne _ _ _ _ h]
  | none =>
      rw [ingestEvent_eq_none s e hl, lookup_setStore_ne _ _ _ _ h,
        lookup_append_single]
      cases hli : lookupStore s i with
      | some w => rfl
      | none =>
          have hne : ¬ e.track_id = i := fun heq => h heq.symm
          simp [hne]

/-- The value of a lookup after replaying a list of events on top of an
initial lookup result: the record accumulates exactly the events filtered to
its identity. -/
def applyEvents (o : Option TrackedObject) (fs : List DetectionEvent) :
    Option TrackedObject :=
  match o, fs with
  | some r, fs => some (fs.foldl (fun a e => processEvent e a) r)
  | none, [] => none
  | none, f :: fs => some ((f :: fs).foldl (fun a e => processEvent e a) initTracked)

theorem lookup_foldl_ingest (es : List DetectionEvent) :
    ∀ (s : Store) (i : ℕ),
      lookupStore (es.foldl ingestEvent s) i =
        applyEvents (lookupStore s i) (es.filter (fun e => e.track_id == i)) := by
  induction es with
  | nil =>
      intro s i
      simp only [List.foldl_nil, List.filter_nil]
      cases hl : lookupStore s i <;> simp [applyEvents]
  | cons e es ih =>
      intro s i
      rw [List.foldl_cons, ih]
      by_cases h : e.track_id = i
      · subst h
        have hf : (e :: es).filter (fun x => x.track_id == e.track_id) =
            e :: es.filter (fun x => x.track_id == e.track_id) := by
          simp [List.filter_cons]
        rw [hf, lookup_ingestEvent_self]
        cases hl : lookupStore s e.track_id with
        | some r => simp [applyEvents]
        | none =>
            cases hfs : es.filter (fun x => x.track_id == e.track_id) with
            | nil => simp [applyEvents]
            | cons f fs => simp [applyEvents]
      · have hf : (e :: es).filter (fun x => x.track_id == i) =
            es.filter (fun x => x.track_id == i) := by
          simp [List.filter_cons, h]
        rw [hf, lookup_ingestEvent_other s e i (fun heq => h heq.symm)]

theorem lookup_ingestAll (es : List DetectionEvent) (i : ℕ) :
    lookupStore (ingestAll es) i =
      applyEvents none (es.filter (fun e => e.track_id == i)) := by
  have := lookup_foldl_ingest es [] i
  simpa [ingestAll, lookupStore] using this

/-! ### Deterministic first maximum for the vote ledger -/

/-- t occurs in the ledger with a count strictly above every earlier entry
and at least every later entry: t is the earliest label carrying the maximal
vote count. -/
def FirstMax (l : List (String × ℕ)) (t : String) : Prop :=
  ∃ pre v post, l = pre ++ (t, v) :: post ∧
    (∀ p ∈ pre, p.2 < v) ∧ (∀ p ∈ post, p.2 ≤ v)

theorem typeLoop_firstMax : ∀ (l : List (String × ℕ)) (b : String) (bv : ℕ),
    FirstMax ((b, bv) :: l) (typeLoop b bv l) := by
  intro l
  induction l with
  | nil =>
      intro b bv
      exact ⟨[], bv, [], rfl, by simp, by simp⟩
  | cons kv rest ih =>
      obtain ⟨k, v⟩ := kv
      intro b bv
      by_cases h : bv < v
      · have hstep : typeLoop b bv ((k, v) :: rest) = typeLoop k v rest := by
          simp [typeLoop, h]
        rw [hstep]
        obtain ⟨pre, w, post, heq, hpre, hpost⟩ := ih k v
        have hvw : v ≤ w := by
          cases pre with
          | nil =>
              rw [List.nil_append] at heq
              have h1 : (k, v) = (typeLoop k v rest, w) := (List.cons.injEq _ _ _ _ ▸ heq).1
              exact le_of_eq (congrArg Prod.snd h1)
          | cons p0 pre2 =>
              have h1 : (k, v) = p0 := (List.cons.injEq _ _ _ _ ▸ heq).1
              have : (k, v) ∈ p0 :: pre2 := h1 ▸ List.mem_cons_self p0 pre2
              exact le_of_lt (hpre _ this)
        refine ⟨(b, bv) :: pre, w, post, ?_, ?_, hpost⟩
        · rw [List.cons_append, ← heq]
        · intro p hp
          rcases List.mem_cons.mp hp with h1 | h1
          · rw [h1]
            exact lt_of_lt_of_le h hvw
          · exact hpre p h1
      · have hstep : typeLoop b bv ((k, v) :: rest) = typeLoop b bv rest := by
          simp [typeLoop, h]
        rw [hstep]
        have hv : v ≤ bv := Nat.not_lt.mp h
        obtain ⟨pre, w, post, heq, hpre, hpost⟩ := ih b bv
        cases pre with
        | nil =>
            rw [List.nil_append] at heq
            have h1 : (b, bv) = (typeLoop b bv rest, w) := (List.cons.injEq _ _ _ _ ▸ heq).1
            have h2 : rest = post := (List.cons.injEq _ _ _ _ ▸ heq).2
            have hb : typeLoop b bv rest = b := (congrArg Prod.fst h1).symm
            have hw : bv = w := congrArg Prod.snd h1
            refine ⟨[], bv, (k, v) :: rest, ?_, by simp, ?_⟩
            · rw [List.nil_append, hb]
            · intro p hp
              rcases List.mem_cons.mp hp with h3 | h3
              · rw [h3]
                exact hv
              · rw [hw]
                exact hpost p (h2 ▸ h3)
        | cons p0 pre2 =>
            have h1 : (b, bv) = p0 := (List.cons.injEq _ _ _ _ ▸ heq).1
            have h2 : rest = pre2 ++ (typeLoop b bv rest, w) :: post :=
              (List.cons.injEq _ _ _ _ ▸ heq).2
            have hbw : bv < w := by
              have := hpre p0 (List.mem_cons_self p0 pre2)
              rw [← h1] at this
              exact this
            refine ⟨(b, bv) :: (k, v) :: pre2, w, post, ?_, ?_, hpost⟩
            · rw [List.cons_append, List.cons_append, ← h2]
            · intro p hp
              rcases List.mem_cons.mp hp with h3 | h3
              · rw [h3]
                exact hbw
              · rcases List.mem_cons.mp h3 with h4 | h4
                · rw [h4]
                  exact lt_of_le_of_lt hv hbw
                · exact hpre p (List.mem_cons_of_mem p0 h4)

theorem pytype_firstMax (l : List (String × ℕ)) (h : l ≠ []) :
    ∃ t, pytype l = some t ∧ FirstMax l t := by
  cases l with
  | nil => exact absurd rfl h
  | cons kv rest =>
      obtain ⟨k, v⟩ := kv
      exact ⟨typeLoop k v rest, rfl, typeLoop_firstMax rest k v⟩

/-! ### Claim theorems -/

/-- Claim C1, counterexample: the claim says the snapshot is set exactly on
the 11th processed observation with threshold 10, but after 11 identical
valid observations of one identity the stored snapshot is still none,
because the capture gate reads the observation count before the current
observation is counted. -/
theorem snapshot_not_set_on_eleventh :
    (runObs (List.replicate 11 mkEv)).cropped_frame = none := rfl

/-- Claim C1, amended: per identity the snapshot transitions from none to a
captured image at most once and irreversibly, and with threshold
FRAMES_COUNT = 10 it is still unset through the 11th observation, is set
exactly on the 12th observation to the crop computed from that event, and
every later observation leaves the stored image unchanged. -/
theorem snapshot_once_and_on_twelfth :
    (∀ (es : List DetectionEvent) (r : TrackedObject) (img : Rect),
        r.cropped_frame = some img →
        (es.foldl (fun a e => processEvent e a) r).cropped_frame = some img) ∧
    (∀ es : List DetectionEvent, es.length ≤ FRAMES_COUNT + 1 →
        (runObs es).cropped_frame = none) ∧
    (∀ (es : List DetectionEvent) (e : DetectionEvent),
        es.length = FRAMES_COUNT + 1 →
        (runObs (es ++ [e])).cropped_frame =
          some (crop_image_with_bbox e.frameW e.frameH e.bbox)) ∧
    (∀ es : List DetectionEvent, FRAMES_COUNT + 2 ≤ es.length →
        ∃ img, (runObs es).cropped_frame = some img) :=
  ⟨fun es r img h => cropped_stable es r img h,
   runObs_cropped_none, runObs_cropped_set_on_next, runObs_cropped_some_of_long⟩

/-- Claim C1, witness: on the concrete run of 11 valid observations followed
by one more, the snapshot is exactly the crop of the 12th event. -/
theorem snapshot_once_and_on_twelfth_witness :
    (runObs (List.replicate 11 mkEv ++ [mkEv])).cropped_frame =
      some (crop_image_with_bbox mkEv.frameW mkEv.frameH mkEv.bbox) :=
  snapshot_once_and_on_twelfth.2.2.1 (List.replicate 11 mkEv) mkEv rfl

set_option maxRecDepth 8000 in
/-- Claim C2, failing evaluation: appending 91 points to an empty trajectory
through the points setter leaves 91 stored points, one more than the
capacity MAX_POINTS = 90, because the setter pops the oldest point only when
the length already strictly exceeds MAX_POINTS. -/
theorem trajectory_exceeds_capacity :
    ((List.replicate 91 ((0 : ℚ), (0 : ℚ))).foldl
        (fun pts p => pointsAppend pts p) []).length = MAX_POINTS + 1 ∧
      MAX_POINTS < MAX_POINTS + 1 :=
  ⟨rfl, by omega⟩

/-- Claim C3, failing evaluation: the crop rectangle is not clamped. The
near corner box (0.02, 0.02, 0.2, 0.2) on a 100 by 100 frame yields the
rectangle with negative origin (-8, -8), while the centered full box
(0.5, 0.5, 1.0, 1.0) yields the full frame rectangle (0, 0, 100, 100). -/
theorem crop_rect_unclamped :
    crop_image_with_bbox 100 100 ⟨2 / 100, 2 / 100, 20 / 100, 20 / 100⟩ =
      ⟨-8, -8, 20, 20⟩ ∧
    (crop_image_with_bbox 100 100 ⟨2 / 100, 2 / 100, 20 / 100, 20 / 100⟩).x < 0 ∧
    crop_image_with_bbox 100 100 ⟨1 / 2, 1 / 2, 1, 1⟩ = ⟨0, 0, 100, 100⟩ := by
  refine ⟨?_, ?_, ?_⟩ <;> norm_num [crop_image_with_bbox, pytrunc]

/-- Claim C4: on every nonempty vote ledger, pytype returns the label whose
count is strictly above every earlier ledger entry and at least every later
one, that is the earliest label with the maximal count; on the label
sequence car, truck, car it returns car by count, and on the tied sequence
car, truck it returns car as the first label observed. -/
theorem predicted_type_first_max :
    (∀ l : List (String × ℕ), l ≠ [] → ∃ t, pytype l = some t ∧ FirstMax l t) ∧
    pytype (buildLedger ["car", "truck", "car"]) = some "car" ∧
    pytype (buildLedger ["car", "truck"]) = some "car" :=
  ⟨pytype_firstMax, rfl, rfl⟩

/-- Claim C4, witness: on the concrete ledger with car at count 2 before
truck at count 1, pytype picks a label that is a first maximum. -/
theorem predicted_type_first_max_witness :
    ∃ t, pytype [("car", 2), ("truck", 1)] = some t ∧
      FirstMax [("car", 2), ("truck", 1)] t :=
  predicted_type_first_max.1 [("car", 2), ("truck", 1)] (List.cons_ne_nil _ _)

/-- Claim C5: get_objects returns exactly the stored entries whose record
length strictly exceeds FRAMES_COUNT; a record with exactly 10 observations
is excluded and one with 11 is included. The query is a pure function of the
store, so calling it leaves the store unchanged by construction. -/
theorem get_objects_confirmed_filter :
    (∀ (s : Store) (kv : ℕ × TrackedObject),
        kv ∈ get_objects s ↔ kv ∈ s ∧ FRAMES_COUNT < kv.2.len) ∧
    get_objects [(0, runObs (List.replicate 10 mkEv))] = [] ∧
    get_objects [(0, runObs (List.replicate 11 mkEv))] =
      [(0, runObs (List.replicate 11 mkEv))] := by
  refine ⟨?_, rfl, rfl⟩
  intro s kv
  simp [get_objects, List.mem_filter]

/-- Claim C6: once first_detection is set it is never mutated by any later
observation; it is set on the first observation of the record to that
observation timestamp; and for every nonempty observation run with
nondecreasing timestamps the final record satisfies first less or equal
last. -/
theorem first_seen_once_and_le_last :
    (∀ (r : TrackedObject) (f : ℕ) (es : List DetectionEvent),
        r.first_detection = some f →
        (es.foldl (fun a e => processEvent e a) r).first_detection = some f) ∧
    (∀ e : DetectionEvent,
        (processEvent e initTracked).first_detection = some e.time) ∧
    (∀ (e : DetectionEvent) (es : List DetectionEvent),
        List.Sorted (· ≤ ·) ((e :: es).map DetectionEvent.time) →
        ∃ f l, (runObs (e :: es)).first_detection = some f ∧
          (runObs (e :: es)).last_detection = some l ∧ f ≤ l) := by
  refine ⟨fun r f es h => first_stable es r f h,
    fun e => processEvent_first_of_none e initTracked rfl, ?_⟩
  intro e es hs
  rw [List.map_cons] at hs
  obtain ⟨l2, h1, h2, h3⟩ :=
    first_last_run es (processEvent e initTracked) e.time e.time
      (processEvent_first_of_none e initTracked rfl)
      (processEvent_last_detection e initTracked) le_rfl hs
  exact ⟨e.time, l2, h1, h2, h3⟩

/-- Claim C6, witness: a single concrete observation gives a record with
first and last set and first less or equal last. -/
theorem first_seen_once_and_le_last_witness :
    ∃ f l, (runObs [mkEv]).first_detection = some f ∧
      (runObs [mkEv]).last_detection = some l ∧ f ≤ l :=
  first_seen_once_and_le_last.2.2 mkEv [] (by simp)

/-- Claim C7: after any observation run the record length equals the number
of processed events and equals the sum of all vote counts in the ledger, and
each further processed event increases the record length by exactly one. -/
theorem observation_count_votes :
    (∀ es : List DetectionEvent, (runObs es).len = es.length) ∧
    (∀ es : List DetectionEvent,
        votesSum (runObs es).predicted_types = es.length) ∧
    (∀ (es : List DetectionEvent) (e : DetectionEvent),
        (runObs (es ++ [e])).len = (runObs es).len + 1) := by
  refine ⟨len_runObs, fun es => (wf_runObs es).1, ?_⟩
  intro es e
  simp [len_runObs]

/-- Claim C8, counterexample: the claim says a malformed event is skipped
and leaves all track records unchanged, but ingesting the malformed event
badEv, whose class label is empty and whose box coordinates lie outside the
unit interval, creates and mutates a record: it stores one vote for the
empty label and appends the center point. -/
theorem malformed_event_applied :
    lookupStore (ingestAll [badEv]) 0 = some (processEvent badEv initTracked) ∧
    (processEvent badEv initTracked).predicted_types = [("", 1)] ∧
    (processEvent badEv initTracked).tracked_points = [badEv.center] :=
  ⟨rfl, rfl, rfl⟩

/-- Claim C8, amended: no validation is performed, so every event of a
batch, malformed or not, is applied to the record of its identity: the
stored record length counts exactly all events carrying that identity, and
an identity with no events stays absent. -/
theorem all_events_counted :
    (∀ (es : List DetectionEvent) (i : ℕ) (r : TrackedObject),
        lookupStore (ingestAll es) i = some r →
        r.len = (es.filter (fun e => e.track_id == i)).length) ∧
    (∀ (es : List DetectionEvent) (i : ℕ),
        es.filter (fun e => e.track_id == i) = [] →
        lookupStore (ingestAll es) i = none) := by
  constructor
  · intro es i r h
    rw [lookup_ingestAll] at h
    cases hf : es.filter (fun e => e.track_id == i) with
    | nil =>
        rw [hf] at h
        exact absurd h (by simp [applyEvents])
    | cons f fs =>
        rw [hf] at h
        have hr : runObs (f :: fs) = r := Option.some.inj h
        rw [← hr, len_runObs, ← hf]
  · intro es i h
    rw [lookup_ingestAll, h]
    rfl

/-- Claim C8, witness: the malformed event badEv is itself counted in the
record stored for its identity. -/
theorem all_events_counted_witness :
    (processEvent badEv initTracked).len =
      (([badEv]).filter (fun e => e.track_id == 0)).length :=
  all_events_counted.1 [badEv] 0 (processEvent badEv initTracked) rfl

/-- Claim C9: fetching an absent identity creates and returns a fresh record
with empty trajectory, empty ledger, length zero and no snapshot, and never
fails; fetching a present identity returns the stored record unchanged;
ingestion never deletes a present record; and all events of one identity
accumulate on the same single record. -/
theorem get_or_create_spec :
    (∀ (s : Store) (i : ℕ), lookupStore s i = none →
        getOrCreate s i = (initTracked, s ++ [(i, initTracked)])) ∧
    (∀ (s : Store) (i : ℕ) (r : TrackedObject), lookupStore s i = some r →
        getOrCreate s i = (r, s)) ∧
    (initTracked.tracked_points = [] ∧ initTracked.predicted_types = [] ∧
      initTracked.len = 0 ∧ initTracked.cropped_frame = none) ∧
    (∀ (s : Store) (e : DetectionEvent) (i : ℕ) (r : TrackedObject),
        lookupStore s i = some r →
        ∃ r2, lookupStore (ingestEvent s e) i = some r2) ∧
    (∀ (es : List DetectionEvent) (i : ℕ),
        es.filter (fun e => e.track_id == i) ≠ [] →
        lookupStore (ingestAll es) i =
          some (runObs (es.filter (fun e => e.track_id == i)))) := by
  refine ⟨?_, ?_, ⟨rfl, rfl, rfl, rfl⟩, ?_, ?_⟩
  · intro s i h
    unfold getOrCreate
    rw [h]
  · intro s i r h
    unfold getOrCreate
    rw [h]
  · intro s e i r h
    by_cases hc : i = e.track_id
    · subst hc
      rw [lookup_ingestEvent_self]
      exact ⟨_, rfl⟩
    · rw [lookup_ingestEvent_other s e i hc]
      exact ⟨r, h⟩
  · intro es i h
    rw [lookup_ingestAll]
    cases hf : es.filter (fun e => e.track_id == i) with
    | nil => exact absurd hf h
    | cons f fs => rfl

/-- Claim C9, witness: ingesting one concrete event creates the record of
identity 0 and stores exactly the replay of the events of that identity. -/
theorem get_or_create_spec_witness :
    lookupStore (ingestAll [mkEv]) 0 =
      some (runObs (([mkEv]).filter (fun e => e.track_id == 0))) :=
  get_or_create_spec.2.2.2.2 [mkEv] 0 (List.cons_ne_nil mkEv [])

/-- Claim C10: resolving the predicted type of a freshly created record with
an empty vote ledger yields none, the embedding of the ValueError raised by
max() on an empty sequence, rather than any label. -/
theorem type_fails_on_fresh_record :
    pytype initTracked.predicted_types = none := rfl

end Tracking
